import Mathlib

set_option maxRecDepth 8000

/-!
Shallow embedding of the locator-translation, session-catalog and
polling-wait cores of `src/SeleniumLibraryToBrowser/__init__.py`.
Strings are modelled as `List Char`; fallible Python code returns `Except`;
the engine collaborator's answers are passed in as explicit arguments.
-/

namespace SLtoB

/-- The single-quote character. -/
def sq : Char := '\''

/-- The double-quote character. -/
def dq : Char := '"'

/-- The newline character (Python `.` in a regex does not match it). -/
def nl : Char := '\n'

/- ### Locator strategy matching (WebElement.get_single_locator) -/

/-- ASCII-case-insensitive strip of a literal pattern from the front of a
character list, returning the remainder.  This models the case-insensitive
literal strategy-name part of Python's
`re.match(f"{strategy} ?[:=] ?", locator, flags=re.IGNORECASE)`. -/
def stripCaseless : List Char → List Char → Option (List Char)
  | [], cs => some cs
  | _ :: _, [] => none
  | p :: ps, c :: cs => if p.toLower = c.toLower then stripCaseless ps cs else none

/-- The trailing ` ?` of the strategy regex: consume at most one space. -/
def dropOptSpace : List Char → List Char
  | ' ' :: r => r
  | r => r

/-- Match the Python regex `{strategy} ?[:=] ?` at the start of `cs`,
returning the remainder after the matched region (`none`: no match). -/
def stratMatch (strategy : List Char) (cs : List Char) : Option (List Char) :=
  match stripCaseless strategy cs with
  | none => none
  | some rest =>
    match rest with
    | ' ' :: c :: r => if c = ':' ∨ c = '=' then some (dropOptSpace r) else none
    | c :: r => if c = ':' ∨ c = '=' then some (dropOptSpace r) else none
    | [] => none

/-- Error message of `WebElement._data_parser` for a malformed `data:` value. -/
def dataErrorText (loc : List Char) : List Char :=
  ("Provided selector (").toList ++ loc ++ (") is malformed. Correct format: name:value.").toList

/-- The builder of the `data` strategy.  Models `WebElement._data_parser`:
`loc.split(":")` must unpack into exactly a name and a value and neither may
be empty, otherwise a ValueError is raised. -/
def dataBuilder (loc : List Char) : Except (List Char) (List Char) :=
  match loc.splitOn ':' with
  | [n, v] =>
    if n = [] ∨ v = [] then .error (dataErrorText loc)
    else .ok (("//*[@data-").toList ++ n ++ ("=\"").toList ++ v ++ ("\"]").toList)
  | _ => .error (dataErrorText loc)

/-- The ordered strategy table `WebElement.LOCATORS` (Python dict in
insertion order; every builder but `data` is a total f-string). -/
def LOCATORS : List (List Char × (List Char → Except (List Char) (List Char))) :=
  [ (("id").toList, fun loc => .ok (("id=").toList ++ loc)),
    (("name").toList, fun loc => .ok (("css=[name=").toList ++ loc ++ ("]").toList)),
    (("identifier").toList, fun loc =>
      .ok (("css=[id=").toList ++ loc ++ ("], [name=").toList ++ loc ++ ("]").toList)),
    (("class").toList, fun loc => .ok (("css=.").toList ++ loc)),
    (("tag").toList, fun loc => .ok (("css=").toList ++ loc)),
    (("xpath").toList, fun loc => .ok (("xpath=").toList ++ loc)),
    (("css").toList, fun loc => .ok (("css=").toList ++ loc)),
    (("jquery").toList, fun loc => .ok (("css=").toList ++ loc)),
    (("sizzle").toList, fun loc => .ok (("css=").toList ++ loc)),
    (("link").toList, fun loc => .ok (("css=a >> text=\"").toList ++ loc ++ ("\"").toList)),
    (("partial link").toList, fun loc => .ok (("css=a >> text=").toList ++ loc)),
    (("text").toList, fun loc => .ok (("text=").toList ++ loc)),
    (("data").toList, dataBuilder),
    (("element").toList, fun loc => .ok (("element=").toList ++ loc)),
    (("default").toList, fun loc =>
      .ok (("css=[id=").toList ++ loc ++ ("], [name=").toList ++ loc ++ ("]").toList)),
    (("nth").toList, fun loc => .ok (("nth=").toList ++ loc)) ]

/-- Try the strategy rules in declared order; the first whose tag matches
consumes the tag and hands the remainder to its builder. -/
def tryStrats :
    List (List Char × (List Char → Except (List Char) (List Char))) → List Char →
      Option (Except (List Char) (List Char))
  | [], _ => none
  | (nm, builder) :: rest, cs =>
    match stratMatch nm cs with
    | some loc => some (builder loc)
    | none => tryStrats rest cs

/-- Models `re.match(r"\(*//", locator)`: any number of leading opening
parentheses followed by a double slash. -/
def xpathStart (cs : List Char) : Bool :=
  match cs.dropWhile (· = '(') with
  | '/' :: '/' :: _ => true
  | _ => false

/-- The pieces of the id-or-name fallback template `[id='{s}'], [name='{s}']`
(also the pieces of the `is_default` recognizer regex). -/
def dPre : List Char := ("[id='").toList

/-- Middle piece of the fallback template. -/
def dSep : List Char := ("'], [name='").toList

/-- Final piece of the fallback template. -/
def dSuf : List Char := ("']").toList

/-- The deny-listed strategy name (`for illegal_loc in ["dom"]`). -/
def domName : List Char := ("dom").toList

/-- The data strategy name, for stating which rule can fail. -/
def dataName : List Char := ("data").toList

/-- The `xpath=` tag prepended when a locator looks like an XPath. -/
def xpEq : List Char := ("xpath=").toList

/-- The synthesized id-or-name equality fallback selector. -/
def idNameFallback (cs : List Char) : List Char :=
  dPre ++ (cs ++ (dSep ++ (cs ++ dSuf)))

/-- Error raised for the deny-listed `dom` strategy (Python lists the valid
strategy names after this text; that rendering is elided here). -/
def domErrorText : List Char :=
  ("Invalid locator strategy 'dom'. Please use a supported locator strategy instead.").toList

/-- Models `WebElement.get_single_locator`: deny-list first, then the ordered
strategy table, then the XPath sniff, then the id-or-name fallback. -/
def get_single_locator (cs : List Char) : Except (List Char) (List Char) :=
  if (stratMatch domName cs).isSome then .error domErrorText
  else
    match tryStrats LOCATORS cs with
    | some r => r
    | none => if xpathStart cs then .ok (xpEq ++ cs) else .ok (idNameFallback cs)

/- ### Chained locators (WebElement.from_string) -/

/-- The chain separator `" >> "`. -/
def chainSep : List Char := (" >> ").toList

/-- Whether `pat` occurs as a contiguous subsequence of `cs`. -/
def containsSeq (pat : List Char) (cs : List Char) : Bool :=
  (List.range (cs.length + 1)).any (fun i => pat.isPrefixOf (cs.drop i))

/-- Fuel-driven split on a (nonempty) separator sequence, leftmost-first,
like Python `str.split(sep)`.  The fuel `cs.length` always suffices: every
step consumes at least one character. -/
def splitSeq (pat : List Char) : Nat → List Char → List Char → List (List Char)
  | 0, cs, acc => [acc.reverse ++ cs]
  | fuel + 1, cs, acc =>
    match cs with
    | [] => [acc.reverse]
    | c :: rest =>
      if pat.isPrefixOf (c :: rest) then
        acc.reverse :: splitSeq pat fuel ((c :: rest).drop pat.length) []
      else splitSeq pat fuel rest (c :: acc)

/-- Split `cs` on every occurrence of `pat`. -/
def splitOnSeq (pat cs : List Char) : List (List Char) := splitSeq pat cs.length cs []

/-- Models `WebElement.from_string`: a locator containing `" >> "` is split,
each segment translated (a segment never contains the separator again, so the
recursive Python call is exactly `get_single_locator`), and rejoined. -/
def from_string (cs : List Char) : Except (List Char) (List Char) :=
  if containsSeq chainSep cs then
    ((splitOnSeq chainSep cs).mapM get_single_locator).map (List.intercalate chainSep)
  else get_single_locator cs

/- ### The default-locator recognizer (WebElement.is_default) -/

/-- One candidate split of the Python fullmatch
`\[id='(.*)'], \[name='(.*)']` with the first group of length `k`: the input
decomposes as `dPre ++ a ++ dSep ++ b ++ dSuf`, both groups newline-free
(Python `.` does not match a newline). -/
def defaultSplitOK (cs : List Char) (k : Nat) : Bool :=
  let a := (cs.drop dPre.length).take k
  let rest := cs.drop (dPre.length + k)
  dPre.isPrefixOf cs && decide (dPre.length + k ≤ cs.length) &&
    a.all (fun c => c != nl) && dSep.isPrefixOf rest &&
    (let bsuf := rest.drop dSep.length
     decide (2 ≤ bsuf.length) && (bsuf.drop (bsuf.length - 2) == dSuf) &&
       (bsuf.take (bsuf.length - 2)).all (fun c => c != nl))

/-- Models `WebElement.is_default`: the greedy fullmatch picks the largest
first-group length for which the whole pattern matches; the value is
returned only when both groups coincide. -/
def is_default (cs : List Char) : Option (List Char) :=
  match (List.range (cs.length + 1)).reverse.find? (defaultSplitOK cs) with
  | none => none
  | some k =>
    let a := (cs.drop dPre.length).take k
    let bsuf := (cs.drop (dPre.length + k)).drop dSep.length
    let b := bsuf.take (bsuf.length - 2)
    if a == b then some a else none

/- ### Role-specific fallback locators (get_button/image/link/list_locator) -/

/-- Python `loc.replace('"', '\\"')`: each double quote becomes backslash
plus double quote. -/
def escDouble (cs : List Char) : List Char :=
  cs.flatMap (fun c => if c = dq then ['\\', dq] else [c])

/-- Models `SLtoB.get_button_locator` (the value is backslash-escaped and
embedded in double-quoted XPath literals). -/
def get_button_locator (cs : List Char) : List Char :=
  match is_default cs with
  | none => cs
  | some v =>
    let l := escDouble v
    ("xpath=//button[@id=\"").toList ++ l ++ ("\"]|//button[@name=\"").toList ++ l ++
      ("\"]|//button[@value=\"").toList ++ l ++ ("\"]|//button[.=\"").toList ++ l ++
      ("\"]|//input[@id=\"").toList ++ l ++ ("\"]|//input[@name=\"").toList ++ l ++
      ("\"]|//input[@value=\"").toList ++ l ++ ("\"]|//input[@src=\"").toList ++ l ++
      ("\"]").toList

/-- Fixed pieces of the `get_link_locator` template; the template's only
double quotes are the eight surrounding the substituted value. -/
def linkC1 : List Char := ("xpath=//a[@id=").toList

/-- Second fixed piece of the link template. -/
def linkC2 : List Char := ("] | //a[@name=").toList

/-- Third fixed piece of the link template. -/
def linkC3 : List Char := ("] | //a[@href=").toList

/-- Fourth fixed piece of the link template. -/
def linkC4 : List Char := ("] | //a[normalize-space(descendant-or-self::text())=").toList

/-- Final fixed piece of the link template. -/
def linkC5 : List Char := ("]").toList

/-- Models `SLtoB.get_link_locator`: Python rewrites every double quote of
the not-yet-substituted template into a single quote when the value contains
a double quote, then substitutes the value verbatim; so each delimiter is a
single quote exactly when the value holds a double quote. -/
def get_link_locator (cs : List Char) : List Char :=
  match is_default cs with
  | none => cs
  | some v =>
    let q : List Char := if v.contains dq then [sq] else [dq]
    linkC1 ++ (q ++ (v ++ (q ++ (linkC2 ++ (q ++ (v ++ (q ++ (linkC3 ++
      (q ++ (v ++ (q ++ (linkC4 ++ (q ++ (v ++ (q ++ linkC5)))))))))))))))

/-- Models `SLtoB.get_image_locator` (no quote handling at all). -/
def get_image_locator (cs : List Char) : List Char :=
  match is_default cs with
  | none => cs
  | some v =>
    ("xpath=//img[@id=\"").toList ++ v ++ ("\"] | //img[@name=\"").toList ++ v ++
      ("\"] | //img[@src=\"").toList ++ v ++ ("\"] | //img[@alt=\"").toList ++ v ++
      ("\"]").toList

/-- Models `SLtoB.get_list_locator` (no quote handling at all). -/
def get_list_locator (cs : List Char) : List Char :=
  match is_default cs with
  | none => cs
  | some v =>
    ("xpath=//select[@id=\"").toList ++ v ++ ("\"] | //select[@name=\"").toList ++ v ++
      ("\"] | //select[@value=\"").toList ++ v ++ ("\"]").toList

/- ### A scanner for XPath string-literal quoting -/

/-- One scanner step: the state says whether we are inside a single-quoted
XPath literal; a double quote outside one is a violation (`none`). -/
def sqStep (c : Char) : Bool → Option Bool
  | true => if c = sq then some false else some true
  | false => if c = sq then some true else if c = dq then none else some false

/-- Run the scanner over a character list from a given (optional) state. -/
def sqFold (cs : List Char) (st : Option Bool) : Option Bool :=
  cs.foldl (fun acc c => acc.bind (sqStep c)) st

/-- Every double quote of the text sits inside a single-quoted XPath
literal (so the expression "uses single-quoted literals throughout, with no
unescaped double quote"). -/
def singleQuotedOK (cs : List Char) : Bool := (sqFold cs (some false)).isSome

/- ### Session catalog (open_browser / close_browser / close_all_browsers) -/

/-- The adapter-side session bookkeeping: the three dicts plus the
`itertools.count` cursor (`browserIndex` is the value `next()` would return). -/
structure CatalogState where
  contextAliases : List (String × Nat)
  contextIndexes : List (Nat × String)
  contextPageCatalog : List (String × List String)
  browserIndex : Nat
deriving DecidableEq

/-- Python dict write `d[k] = v`: overwrite in place when the key exists,
append otherwise. -/
def dictInsert {α β : Type} [BEq α] (l : List (α × β)) (k : α) (v : β) : List (α × β) :=
  if (List.lookup k l).isSome then l.map (fun p => if p.1 == k then (k, v) else p)
  else l ++ [(k, v)]

/-- Python dict `pop`: drop the entry with the given key. -/
def dictPop {α β : Type} [BEq α] : List (α × β) → α → List (α × β)
  | [], _ => []
  | (k, v) :: rest, key => if k == key then rest else (k, v) :: dictPop rest key

/-- What `open_browser` did: either reuse of the context already bound to
the alias (the engine is told to switch there and navigate — no error, no
new id) or creation of a fresh context with a new synthetic id.
`keyError` models the Python KeyError when an alias maps to a dropped index. -/
inductive OpenResult where
  | reused (ctxId : String) (idx : Nat)
  | created (idx : Nat)
  | keyError
deriving DecidableEq

/-- The fresh-context arm of `open_browser`: assign `next(browser_index)`,
record the engine's new context and page ids, register a truthy alias. -/
def openNew (st : CatalogState) (aliasOpt : Option String) (newCtxId newPageId : String) :
    CatalogState × OpenResult :=
  let idx := st.browserIndex
  ({ contextAliases :=
       match aliasOpt with
       | some a => if a = "" then st.contextAliases else dictInsert st.contextAliases a idx
       | none => st.contextAliases
     contextIndexes := dictInsert st.contextIndexes idx newCtxId
     contextPageCatalog := dictInsert st.contextPageCatalog newCtxId [newPageId]
     browserIndex := st.browserIndex + 1 }, .created idx)

/-- Models `SLtoB.open_browser`: an alias already present in
`_context_aliases` makes the call switch to that context and navigate,
returning the existing index; otherwise a new context is created. -/
def open_browser (st : CatalogState) (aliasOpt : Option String) (newCtxId newPageId : String) :
    CatalogState × OpenResult :=
  match aliasOpt with
  | some a =>
    match List.lookup a st.contextAliases with
    | some idx =>
      match List.lookup idx st.contextIndexes with
      | some ctxId => (st, .reused ctxId idx)
      | none => (st, .keyError)
    | none => openNew st aliasOpt newCtxId newPageId
  | none => openNew st aliasOpt newCtxId newPageId

/-- Models `SLtoB.close_all_browsers`: all three dicts are emptied and the
id counter is re-created as `count(1)`. -/
def close_all_browsers (_st : CatalogState) : CatalogState :=
  { contextAliases := [], contextIndexes := [], contextPageCatalog := [], browserIndex := 1 }

/-- First synthetic index bound to the given native context id. -/
def findIdxFor : List (Nat × String) → String → Option Nat
  | [], _ => none
  | (k, v) :: rest, cid => if v == cid then some k else findIdxFor rest cid

/-- First alias bound to the given synthetic index. -/
def findAliasFor : List (String × Nat) → Nat → Option String
  | [], _ => none
  | (k, v) :: rest, idx => if v == idx then some k else findAliasFor rest idx

/-- Models `SLtoB.close_browser`: when the engine reports no current context
the whole catalog is torn down via `close_all_browsers` (resetting the id
counter); otherwise the entry of the current context, and the first alias
pointing at it, are dropped.  The engine-side context close is external. -/
def close_browser (st : CatalogState) (engineCtxIds : List String) : CatalogState :=
  match engineCtxIds with
  | [] => close_all_browsers st
  | currentId :: _ =>
    match findIdxFor st.contextIndexes currentId with
    | none => st
    | some idx =>
      let st1 : CatalogState :=
        { st with contextPageCatalog := dictPop st.contextPageCatalog currentId
                  contextIndexes := dictPop st.contextIndexes idx }
      match findAliasFor st.contextAliases idx with
      | none => st1
      | some a => { st1 with contextAliases := dictPop st1.contextAliases a }

/-- One catalog-affecting operation of a session history; the engine's
answers (fresh ids, current context enumeration) travel with the op. -/
inductive CatalogOp where
  | openOp (aliasOpt : Option String) (newCtxId newPageId : String)
  | closeOp (engineCtxIds : List String)
  | closeAllOp
deriving DecidableEq

/-- Run one operation, returning the new state and the synthetic ids newly
issued by it. -/
def stepIssued (st : CatalogState) : CatalogOp → CatalogState × List Nat
  | .openOp a c p =>
    match open_browser st a c p with
    | (st', .created idx) => (st', [idx])
    | (st', _) => (st', [])
  | .closeOp ids => (close_browser st ids, [])
  | .closeAllOp => (close_all_browsers st, [])

/-- All synthetic ids issued along a history, in order. -/
def issuedIds (st : CatalogState) : List CatalogOp → List Nat
  | [] => []
  | op :: ops =>
    let r := stepIssued st op
    r.2 ++ issuedIds r.1 ops

/-- The library's initial bookkeeping (`count(1)`, empty dicts). -/
def initialCatalog : CatalogState := ⟨[], [], [], 1⟩

/-- No operation of the history re-creates the id counter: no
`close_all_browsers`, and every `close_browser` sees a live context. -/
def noCounterReset (ops : List CatalogOp) : Bool :=
  ops.all fun op =>
    match op with
    | .closeAllOp => false
    | .closeOp ids => !ids.isEmpty
    | _ => true

/- ### Page-catalog reconciliation (_get_current_page_ids) -/

/-- The first loop of `_get_current_page_ids`: append engine-reported page
ids missing from the cached catalog. -/
def appendNewPages (catalog : List String) (engine : List String) : List String :=
  engine.foldl (fun cat p => if p ∈ cat then cat else cat ++ [p]) catalog

/-- The second loop of `_get_current_page_ids`, with Python's semantics of
a `for` loop over the very list it mutates: the cursor advances after every
step even when the current element was just removed, so the element that
slid into the removed slot is skipped.  The fuel `cat.length` suffices: the
cursor grows by one per step and the list never grows. -/
def removePass (engine : List String) : Nat → List String → Nat → List String
  | 0, cat, _ => cat
  | fuel + 1, cat, i =>
    if h : i < cat.length then
      let x := cat[i]
      if x ∈ engine then removePass engine fuel cat (i + 1)
      else removePass engine fuel (cat.erase x) (i + 1)
    else cat

/-- Models `SLtoB._get_current_page_ids` on the current context's cached
list `catalog`, with the engine reporting `engine`. -/
def get_current_page_ids (catalog engine : List String) : List String :=
  let merged := appendNewPages catalog engine
  removePass engine merged.length merged 0

/- ### Polling wait (_wait_until / _wait_until_worker) -/

/-- What one evaluation of the condition does: return a truth value, or
raise with a message. -/
inductive PredResult where
  | ok (b : Bool)
  | exn (msg : List Char)
deriving DecidableEq

/-- Outcome of the worker: success at some iteration, or an AssertionError
carrying the raised message. -/
inductive WaitResult where
  | success (i : Nat)
  | timeoutMsg (raised : List Char)
deriving DecidableEq

/-- Python `not_found or error`: `None` and the empty string both fall
through to `error`. -/
def pyOr (nf : Option (List Char)) (err : List Char) : List Char :=
  match nf with
  | some m => if m = [] then err else m
  | none => err

/-- Models the loop of `SLtoB._wait_until_worker`.  `clock i` is the
`time.time()` reading of the i-th `while` test (the 200 ms sleep lives in
hypotheses about `clock`); `notFound` is the captured message of the most
recent iteration, cleared when the condition merely returned false.  The
fuel only caps the modelled prefix of the (wall-clock-terminated) loop. -/
def workerLoop (cond : Nat → PredResult) (clock : Nat → Int) (maxTime : Int)
    (err : List Char) (notFound : Option (List Char)) (i fuel : Nat) : Option WaitResult :=
  match fuel with
  | 0 => none
  | fuel + 1 =>
    if clock i < maxTime then
      match cond i with
      | .ok true => some (.success i)
      | .ok false => workerLoop cond clock maxTime err none (i + 1) fuel
      | .exn m => workerLoop cond clock maxTime err (some m) (i + 1) fuel
    else some (.timeoutMsg (pyOr notFound err))

/-- `SLtoB._wait_until_worker` with `max_time = time.time() + timeout`
already folded into `maxTime`. -/
def waitUntilWorker (cond : Nat → PredResult) (clock : Nat → Int) (maxTime : Int)
    (err : List Char) (fuel : Nat) : Option WaitResult :=
  workerLoop cond clock maxTime err none 0 fuel

/-- The literal placeholder of the error templates. -/
def timeoutToken : List Char := ("<TIMEOUT>").toList

/-- Python `str.replace(pat, rep)` for a nonempty pattern. -/
def replaceSeq (pat rep cs : List Char) : List Char :=
  List.intercalate rep (splitOnSeq pat cs)

/-- The error-message selection of `SLtoB._wait_until`: with no custom error
the template gets `<TIMEOUT>` substituted by the rendered timeout
(`secs_to_timestr`, abstracted as `rendered`); a custom error is used
verbatim, with no substitution. -/
def effectiveError (tmpl : List Char) (custom : Option (List Char)) (rendered : List Char) :
    List Char :=
  match custom with
  | none => replaceSeq timeoutToken rendered tmpl
  | some ce => ce

/-- Models `SLtoB._wait_until` composed with its worker: compute the
effective error, the absolute deadline, and run the polling loop. -/
def wait_until (cond : Nat → PredResult) (clock : Nat → Int) (startTime timeoutMs : Int)
    (tmpl : List Char) (custom : Option (List Char)) (render : Int → List Char)
    (fuel : Nat) : Option WaitResult :=
  workerLoop cond clock (startTime + timeoutMs) (effectiveError tmpl custom (render timeoutMs))
    none 0 fuel

/-- The message `_wait_until_worker` raises when the deadline arrives after
`n` executed iterations: the final iteration's captured exception message
when that iteration raised (an empty message falls through, by Python
truthiness), else the effective error `dflt`. -/
def finalMsg (cond : Nat → PredResult) (n : Nat) (dflt : List Char) : List Char :=
  match n with
  | 0 => dflt
  | m + 1 =>
    match cond m with
    | .exn msg => if msg = [] then dflt else msg
    | _ => dflt

/- ### Predicates used to state the claims -/

/-- No strategy tag of the table (nor the deny-listed `dom`) matches at the
front of `s` — the "no strategy prefix followed by ':' or '='" condition. -/
def noStrategyOf (s : List Char) : Bool :=
  (domName :: LOCATORS.map Prod.fst).all (fun nm => (stratMatch nm s).isNone)

/-- The claim's "contains no special characters", exactly as enumerated: no
strategy tag, no chain separator, no XPath-start pattern, no quote. -/
def noSpecialChars (s : List Char) : Bool :=
  noStrategyOf s && !containsSeq chainSep s && !xpathStart s &&
    !s.contains sq && !s.contains dq

/-- The round-trip property: translating and then applying the recognizer
recovers the original string. -/
def roundTrips (s : List Char) : Bool :=
  match from_string s with
  | .ok t => is_default t == some s
  | .error _ => false

/-- Whether a translation result is a raised error. -/
def isError : Except (List Char) (List Char) → Bool
  | .error _ => true
  | .ok _ => false

/-- The captured-exception register of the worker after `n` iterations
starting at index `i`. -/
def branchNF : PredResult → Option (List Char)
  | .exn msg => some msg
  | _ => none

/-- The `not_found` register the worker holds when the deadline arrives
after iterations `i, i+1, …, i+n-1` have run (`nf`: its initial value). -/
def lastExn (cond : Nat → PredResult) (i n : Nat) (nf : Option (List Char)) :
    Option (List Char) :=
  match n with
  | 0 => nf
  | m + 1 => branchNF (cond (i + m))

/- ### Concrete instances used by counterexamples and witnesses -/

/-- A quote-free, strategy-free string containing a newline. -/
def cexStrC1 : List Char := ("a\nb").toList

/-- A plain identifier-like locator string. -/
def witStrC1 : List Char := ("foo").toList

/-- A catalog in which alias `a` is bound to index 1 / context `ctx1`. -/
def c2state : CatalogState := ⟨[(("a"), 1)], [(1, ("ctx1"))], [(("ctx1"), [("p1")])], 2⟩

/-- open, close-all, open: the second open reuses synthetic id 1. -/
def c3trace : List CatalogOp :=
  [.openOp none ("c1") ("p1"), .closeAllOp, .openOp none ("c2") ("p2")]

/-- A reset-free history: two opens, a close of a live context, an open. -/
def c3good : List CatalogOp :=
  [.openOp (some ("x")) ("c1") ("p1"), .openOp none ("c2") ("p2"),
    .closeOp [("c1")], .openOp none ("c3") ("p3")]

/-- A predicate that raises with an empty message on every call. -/
def c5cond : Nat → PredResult := fun _ => .exn []

/-- A predicate that always returns false. -/
def c5fcond : Nat → PredResult := fun _ => .ok false

/-- An error-template rendering of the timeout, standing in for
`secs_to_timestr`. -/
def c5render : Int → List Char := fun _ => ("300 milliseconds").toList

/-- Clock readings 200 ms apart (the worker's sleep interval). -/
def stdClock : Nat → Int := fun n => 200 * n

/-- A predicate that raises "not ready" on its first four calls and returns
true on the fifth. -/
def c6cond : Nat → PredResult :=
  fun n => if n < 4 then .exn (("not ready").toList) else .ok true

/-- A predicate that returns true immediately. -/
def alwaysTrue : Nat → PredResult := fun _ => .ok true

/-- A default-strategy value containing a double quote. -/
def c9val : List Char := ("a\"b").toList

/-- The synthesized default locator for `c9val`. -/
def c9loc : List Char := idNameFallback c9val

/-- A locator that starts with a single slash but not a double slash. -/
def slashHtml : List Char := ("/html").toList

/-- A data-strategy locator whose remainder has no colon. -/
def dataFoo : List Char := ("data=foo").toList

/- ### General list helpers -/

/-- A list is a Boolean prefix of itself followed by anything. -/
theorem isPrefixOf_append_self (a b : List Char) : a.isPrefixOf (a ++ b) = true := by
  rw [List.isPrefixOf_iff_prefix]
  exact ⟨b, rfl⟩

/-- A Boolean prefix yields an append decomposition. -/
theorem exists_of_isPrefixOf {a b : List Char} (h : a.isPrefixOf b = true) :
    ∃ t, b = a ++ t := by
  rw [List.isPrefixOf_iff_prefix] at h
  obtain ⟨t, ht⟩ := h
  exact ⟨t, ht.symm⟩

/-- Non-membership gives the Boolean all-different test. -/
theorem all_bne_of_not_mem {c : Char} {l : List Char} (h : c ∉ l) :
    l.all (fun x => x != c) = true := by
  rw [List.all_eq_true]
  intro x hx
  exact bne_iff_ne.mpr (fun e => h (e ▸ hx))

/-- `find?` over the descending range returns the largest satisfying value
when everything above it fails. -/
theorem find_desc (p : Nat → Bool) (L : Nat) :
    ∀ n, p L = true → (∀ k, L < k → p k = false) → L ≤ n →
      (List.range (n + 1)).reverse.find? p = some L := by
  intro n
  induction n with
  | zero =>
    intro hL _ hn
    have h0 : L = 0 := Nat.le_zero.mp hn
    subst h0
    rw [List.range_succ]
    simp only [List.range_zero, List.nil_append, List.reverse_singleton]
    exact List.find?_cons_of_pos _ hL
  | succ m ih =>
    intro hL hgt hn
    rw [List.range_succ, List.reverse_append, List.reverse_singleton, List.singleton_append]
    rcases Nat.lt_or_ge L (m + 1) with h | h
    · rw [List.find?_cons_of_neg _ (by simp [hgt _ h])]
      exact ih hL hgt (Nat.lt_succ_iff.mp h)
    · have hLm : L = m + 1 := le_antisymm hn h
      subst hLm
      exact List.find?_cons_of_pos _ hL

/- ### Claim C2: duplicate alias on open -/

/-- Claim C2 counterexample: with alias `a` already bound to a live handle,
`open_browser` does not fail — it silently reuses the existing context
(switching and navigating) and returns the existing synthetic index. -/
theorem C2_counterexample :
    open_browser c2state (some ("a")) ("c2") ("p2") =
      (c2state, OpenResult.reused ("ctx1") 1) := by decide

/-- Claim C2 (amended): calling `open_browser` with an alias already bound
to a live handle reuses the session: the catalog is unchanged and the call
reports reuse of the bound context with the existing index — no
duplicate-alias error is raised. -/
theorem C2_duplicate_alias_reuses (st : CatalogState) (a : String) (idx : Nat)
    (cid newC newP : String)
    (h1 : List.lookup a st.contextAliases = some idx)
    (h2 : List.lookup idx st.contextIndexes = some cid) :
    open_browser st (some a) newC newP = (st, .reused cid idx) := by
  simp [open_browser, h1, h2]

/-- Witness for C2: the amended theorem applied to the concrete catalog. -/
theorem C2_witness :
    open_browser c2state (some ("a")) ("c2") ("p2") =
      (c2state, OpenResult.reused ("ctx1") 1) :=
  C2_duplicate_alias_reuses c2state ("a") 1 ("ctx1") ("c2") ("p2") (by decide) (by decide)

/- ### Claim C3: synthetic id monotonicity -/

/-- Claim C3 counterexample: `close_all_browsers` re-creates the counter as
`count(1)`, so open / close-all / open issues the id 1 twice — ids are not
pairwise distinct across a whole process lifetime. -/
theorem C3_counterexample :
    issuedIds initialCatalog c3trace = [1, 1] ∧
      ¬ List.Pairwise (fun a b => a ≠ b) (issuedIds initialCatalog c3trace) := by
  constructor
  · decide
  · decide

/- ### Claim C4: reconciliation idempotence (code bug) -/

/-- Claim C4: the removal loop of `_get_current_page_ids` mutates the list
it iterates, skipping the element after each removal; with cached pages
`[a, b]` and the engine reporting `[c]`, the first reconciliation returns
`[b, c]` (the stale `b` survives) and the second returns `[c]` — calling
`pagesFor("CURRENT")` twice under an unchanged engine is not idempotent. -/
theorem C4_reconcile_not_idempotent :
    get_current_page_ids [("a"), ("b")] [("c")] = [("b"), ("c")] ∧
      get_current_page_ids (get_current_page_ids [("a"), ("b")] [("c")]) [("c")] = [("c")] ∧
      get_current_page_ids (get_current_page_ids [("a"), ("b")] [("c")]) [("c")] ≠
        get_current_page_ids [("a"), ("b")] [("c")] := by
  refine ⟨by decide, by decide, by decide⟩

/- ### Claim C8: XPath sniffing -/

/-- Claim C8 counterexample: `/html` starts with a slash and matches no
strategy rule, yet the code's `\(*//` test fails on it, so it receives the
id-or-name fallback instead of the claimed XPath wrap. -/
theorem C8_counterexample :
    (stratMatch domName slashHtml).isSome = false ∧
      tryStrats LOCATORS slashHtml = none ∧
      slashHtml.head? = some '/' ∧
      get_single_locator slashHtml = .ok (idNameFallback slashHtml) ∧
      idNameFallback slashHtml ≠ xpEq ++ slashHtml := by
  refine ⟨by decide, rfl, rfl, rfl, by decide⟩

/-- Claim C8 (amended): a locator matching no rule is wrapped as XPath
exactly when it consists of any number of `(` followed by `//`; every other
unmatched string — including ones merely starting with `/` or `(` — gets
the id-or-name fallback. -/
theorem C8_xpath_gate (cs : List Char)
    (hdom : (stratMatch domName cs).isSome = false)
    (hstrat : tryStrats LOCATORS cs = none) :
    get_single_locator cs =
      .ok (if xpathStart cs then xpEq ++ cs else idNameFallback cs) := by
  unfold get_single_locator
  simp only [hdom, Bool.false_eq_true, if_false, hstrat]
  by_cases hx : xpathStart cs = true
  · rw [if_pos hx, if_pos hx]
  · rw [if_neg hx, if_neg hx]

/-- Witness for C8: the amended theorem applied to `//x`. -/
theorem C8_witness :
    get_single_locator (("//x").toList) =
      .ok (if xpathStart (("//x").toList) then xpEq ++ ("//x").toList
           else idNameFallback (("//x").toList)) :=
  C8_xpath_gate (("//x").toList) (by decide) rfl

/- ### Claim C10: non-positive timeout -/

/-- Claim C10: with a zero or negative timeout the worker's deadline is
already past at the first clock reading, so it raises the assertion error
immediately — for every predicate, even one that would return true at once;
a successful return needs a strictly positive timeout. -/
theorem C10_nonpositive_timeout (cond : Nat → PredResult) (clock : Nat → Int)
    (startTime timeoutMs : Int) (err : List Char) (fuel : Nat)
    (ht : timeoutMs ≤ 0) (hclock : startTime ≤ clock 0) (hfuel : 0 < fuel) :
    waitUntilWorker cond clock (startTime + timeoutMs) err fuel =
      some (.timeoutMsg err) := by
  match fuel, hfuel with
  | f + 1, _ =>
    unfold waitUntilWorker workerLoop
    rw [if_neg (by omega)]
    rfl

/-- Witness for C10: an immediately-true predicate still times out under a
zero timeout. -/
theorem C10_witness :
    waitUntilWorker alwaysTrue stdClock (0 + 0) [] 1 = some (.timeoutMsg []) :=
  C10_nonpositive_timeout alwaysTrue stdClock 0 0 [] 1 (le_refl 0) (by decide) (by decide)

/- ### Worker-loop lemmas -/

/-- Shifting the captured-exception register across one executed iteration:
after running iteration `i`, the register holds `branchNF (cond i)` and the
remaining count drops by one. -/
theorem lastExn_shift (cond : Nat → PredResult) (i m : Nat) (nf X : Option (List Char))
    (hX : X = branchNF (cond i)) :
    lastExn cond (i + 1) m X = lastExn cond i (m + 1) nf := by
  cases m with
  | zero =>
    subst hX
    rfl
  | succ m' =>
    have harith : i + 1 + m' = i + (m' + 1) := by omega
    simp only [lastExn, harith]

/-- The worker reaches its deadline after `n` executed iterations (each one
pre-deadline and unsatisfied) and raises `pyOr` of the register over the
effective error. -/
theorem workerLoop_deadline (cond : Nat → PredResult) (clock : Nat → Int) (maxTime : Int)
    (err : List Char) :
    ∀ (n i fuel : Nat) (nf : Option (List Char)),
      (∀ j, j < n → clock (i + j) < maxTime ∧ cond (i + j) ≠ .ok true) →
      maxTime ≤ clock (i + n) → n < fuel →
      workerLoop cond clock maxTime err nf i fuel =
        some (.timeoutMsg (pyOr (lastExn cond i n nf) err)) := by
  intro n
  induction n with
  | zero =>
    intro i fuel nf _ hdead hfuel
    match fuel, hfuel with
    | f + 1, _ =>
      have hdead' : maxTime ≤ clock i := by simpa using hdead
      unfold workerLoop
      rw [if_neg (by omega)]
      rfl
  | succ m ih =>
    intro i fuel nf hrun hdead hfuel
    match fuel, hfuel with
    | f + 1, hf =>
      have h0 := hrun 0 (Nat.succ_pos m)
      have h0c : clock i < maxTime := by simpa using h0.1
      have h0t : cond i ≠ .ok true := by simpa using h0.2
      have hrun' : ∀ j, j < m → clock (i + 1 + j) < maxTime ∧ cond (i + 1 + j) ≠ .ok true := by
        intro j hj
        have heq : i + 1 + j = i + (j + 1) := by omega
        rw [heq]
        exact hrun (j + 1) (by omega)
      have hdead' : maxTime ≤ clock (i + 1 + m) := by
        have heq : i + 1 + m = i + (m + 1) := by omega
        rw [heq]
        exact hdead
      have hfm : m < f := by omega
      unfold workerLoop
      rw [if_pos h0c]
      cases hc : cond i with
      | ok b =>
        cases b with
        | true => exact absurd hc h0t
        | false =>
          show workerLoop cond clock maxTime err none (i + 1) f = _
          rw [ih (i + 1) f none hrun' hdead' hfm]
          rw [lastExn_shift cond i m nf none (by rw [hc]; rfl)]
      | exn msg =>
        show workerLoop cond clock maxTime err (some msg) (i + 1) f = _
        rw [ih (i + 1) f (some msg) hrun' hdead' hfm]
        rw [lastExn_shift cond i m nf (some msg) (by rw [hc]; rfl)]

/-- The worker succeeds at iteration `k` when every earlier evaluation
raised and the deadline never intervened. -/
theorem workerLoop_success (cond : Nat → PredResult) (clock : Nat → Int) (maxTime : Int)
    (err : List Char) :
    ∀ (k i fuel : Nat) (nf : Option (List Char)),
      (∀ j, j < k → ∃ m, cond (i + j) = .exn m) →
      cond (i + k) = .ok true →
      (∀ j, j ≤ k → clock (i + j) < maxTime) →
      k < fuel →
      workerLoop cond clock maxTime err nf i fuel = some (.success (i + k)) := by
  intro k
  induction k with
  | zero =>
    intro i fuel nf _ htrue hclock hfuel
    match fuel, hfuel with
    | f + 1, _ =>
      unfold workerLoop
      rw [if_pos (by simpa using hclock 0 (le_refl 0))]
      rw [show cond i = .ok true from by simpa using htrue]
      rfl
  | succ m ih =>
    intro i fuel nf hexn htrue hclock hfuel
    match fuel, hfuel with
    | f + 1, hf =>
      obtain ⟨msg, hmsg⟩ := hexn 0 (Nat.succ_pos m)
      have hmsg' : cond i = .exn msg := by simpa using hmsg
      have hexn' : ∀ j, j < m → ∃ m', cond (i + 1 + j) = .exn m' := by
        intro j hj
        have heq : i + 1 + j = i + (j + 1) := by omega
        rw [heq]
        exact hexn (j + 1) (by omega)
      have htrue' : cond (i + 1 + m) = .ok true := by
        have heq : i + 1 + m = i + (m + 1) := by omega
        rw [heq]
        exact htrue
      have hclock' : ∀ j, j ≤ m → clock (i + 1 + j) < maxTime := by
        intro j hj
        have heq : i + 1 + j = i + (j + 1) := by omega
        rw [heq]
        exact hclock (j + 1) (by omega)
      unfold workerLoop
      rw [if_pos (by simpa using hclock 0 (Nat.zero_le _))]
      rw [hmsg']
      show workerLoop cond clock maxTime err (some msg) (i + 1) f = _
      have hres := ih (i + 1) f (some msg) hexn' htrue' hclock' (by omega)
      rw [show i + 1 + m = i + (m + 1) from by omega] at hres
      exact hres

/- ### Claim C5: deadline message priority -/

/-- Claim C5 counterexample: the final poll iteration raises (with an empty
message) and a custom error is given; the claim's priority picks the raised
message, but Python's `not_found or error` truthiness lets the empty
message fall through to the custom error. -/
theorem C5_counterexample :
    wait_until c5cond stdClock 0 300 (("X did not happen in <TIMEOUT>.").toList)
        (some (("CUSTOM").toList)) c5render 5 =
      some (.timeoutMsg (("CUSTOM").toList)) ∧
    stdClock 1 < 0 + 300 ∧ 0 + 300 ≤ stdClock 2 ∧
    c5cond 1 = .exn [] ∧ (("CUSTOM").toList) ≠ ([] : List Char) := by
  refine ⟨rfl, by decide, by decide, rfl, by decide⟩

/-- Claim C5 (amended): at the deadline, the raised assertion's message is
the final executed iteration's captured exception message when that
iteration raised with a non-empty message (an empty message is treated as
absent); otherwise the caller's custom error verbatim, with no `<TIMEOUT>`
substitution; otherwise the template with `<TIMEOUT>` replaced by the
rendered timeout. -/
theorem C5_message_priority (cond : Nat → PredResult) (clock : Nat → Int)
    (startTime timeoutMs : Int) (tmpl : List Char) (custom : Option (List Char))
    (render : Int → List Char) (n fuel : Nat)
    (hrun : ∀ j, j < n → clock j < startTime + timeoutMs ∧ cond j ≠ .ok true)
    (hdead : startTime + timeoutMs ≤ clock n) (hfuel : n < fuel) :
    wait_until cond clock startTime timeoutMs tmpl custom render fuel =
      some (.timeoutMsg
        (finalMsg cond n (effectiveError tmpl custom (render timeoutMs)))) := by
  have h := workerLoop_deadline cond clock (startTime + timeoutMs)
    (effectiveError tmpl custom (render timeoutMs)) n 0 fuel none
    (by simpa using hrun) (by simpa using hdead) hfuel
  have hmsg : pyOr (lastExn cond 0 n none)
      (effectiveError tmpl custom (render timeoutMs)) =
      finalMsg cond n (effectiveError tmpl custom (render timeoutMs)) := by
    cases n with
    | zero => rfl
    | succ m =>
      simp only [lastExn, Nat.zero_add, finalMsg]
      cases cond m with
      | exn msg => rfl
      | ok b => rfl
  rw [hmsg] at h
  exact h

/-- Witness for C5: an always-false predicate with no custom error raises
the template with `<TIMEOUT>` substituted. -/
theorem C5_witness :
    wait_until c5fcond stdClock 0 300 (("X did not happen in <TIMEOUT>.").toList)
        none c5render 5 =
      some (.timeoutMsg (("X did not happen in 300 milliseconds.").toList)) :=
  (C5_message_priority c5fcond stdClock 0 300 (("X did not happen in <TIMEOUT>.").toList)
      none c5render 2 5
      (fun j hj => ⟨by interval_cases j <;> decide, by simp [c5fcond]⟩)
      (by decide) (by decide)).trans (by decide)

/- ### Claim C6: predicate exceptions count as pending -/

/-- Claim C6: a predicate that raises on each of its first `k` evaluations
and returns true on evaluation `k+1` before the deadline makes the wait
succeed — an exception is treated exactly like "not yet satisfied". -/
theorem C6_exception_as_pending (cond : Nat → PredResult) (clock : Nat → Int)
    (maxTime : Int) (err : List Char) (k fuel : Nat)
    (hexn : ∀ j, j < k → ∃ m, cond j = .exn m)
    (htrue : cond k = .ok true)
    (hmono : ∀ a b : Nat, a ≤ b → clock a ≤ clock b)
    (hk : clock k < maxTime) (hfuel : k < fuel) :
    waitUntilWorker cond clock maxTime err fuel = some (.success k) := by
  have h := workerLoop_success cond clock maxTime err k 0 fuel none
    (by simpa using hexn) (by simpa using htrue)
    (fun j hj => by
      rw [Nat.zero_add]
      exact lt_of_le_of_lt (hmono j k hj) hk)
    hfuel
  simpa using h

/-- Witness for C6: the literal scenario of the spec — four raises of
"not ready", success on the fifth poll. -/
theorem C6_witness :
    waitUntilWorker c6cond stdClock 100000 [] 6 = some (.success 4) :=
  C6_exception_as_pending c6cond stdClock 100000 [] 4 6
    (fun j hj => ⟨("not ready").toList, by simp [c6cond, hj]⟩) rfl
    (fun a b h => by
      simp only [stdClock]
      omega)
    (by decide) (by decide)

/- ### Claim C7: totality of translation -/

/-- A strategy-table error pinpoints the matched rule. -/
theorem tryStrats_error_mem :
    ∀ (rules : List (List Char × (List Char → Except (List Char) (List Char))))
      (cs e : List Char), tryStrats rules cs = some (.error e) →
      ∃ p ∈ rules, ∃ rest, stratMatch p.1 cs = some rest ∧ p.2 rest = .error e := by
  intro rules
  induction rules with
  | nil =>
    intro cs e h
    simp [tryStrats] at h
  | cons q rules ih =>
    intro cs e h
    obtain ⟨nm, b⟩ := q
    unfold tryStrats at h
    cases hm : stratMatch nm cs with
    | some loc =>
      rw [hm] at h
      exact ⟨(nm, b), by simp, loc, hm, Option.some.inj h⟩
    | none =>
      rw [hm] at h
      obtain ⟨p, hp, rest, h1, h2⟩ := ih cs e h
      exact ⟨p, by simp [hp], rest, h1, h2⟩

/-- In the concrete table, only the `data` rule can produce an error. -/
theorem LOCATORS_error_is_data (cs e : List Char)
    (h : tryStrats LOCATORS cs = some (.error e)) :
    ∃ rest, stratMatch dataName cs = some rest ∧ dataBuilder rest = .error e := by
  obtain ⟨p, hp, rest, h1, h2⟩ := tryStrats_error_mem LOCATORS cs e h
  simp only [LOCATORS, List.mem_cons, List.not_mem_nil, or_false] at hp
  rcases hp with rfl | rfl | rfl | rfl | rfl | rfl | rfl | rfl | rfl | rfl | rfl | rfl
    | rfl | rfl | rfl | rfl
  all_goals first
    | exact ⟨rest, h1, h2⟩
    | exact absurd h2 (by simp)

/-- Claim C7 counterexample: `data=foo` has no deny-listed strategy yet the
translation raises (the data remainder has no colon). -/
theorem C7_counterexample :
    (stratMatch domName dataFoo).isSome = false ∧
      isError (get_single_locator dataFoo) = true := by
  exact ⟨by decide, rfl⟩

/-- Claim C7 (amended): translation fails only for the deny-listed `dom`
strategy or for a `data` locator whose remainder is malformed (not exactly
one colon between two nonempty parts); every error is one of the two. -/
theorem C7_failure_only_dom_or_data (cs e : List Char)
    (h : get_single_locator cs = .error e) :
    (stratMatch domName cs).isSome = true ∨
      ∃ rest, stratMatch dataName cs = some rest ∧ dataBuilder rest = .error e := by
  by_cases hdom : (stratMatch domName cs).isSome = true
  · exact Or.inl hdom
  · right
    have hd : (stratMatch domName cs).isSome = false := by
      rwa [Bool.not_eq_true] at hdom
    unfold get_single_locator at h
    rw [hd] at h
    simp only [Bool.false_eq_true, if_false] at h
    cases htr : tryStrats LOCATORS cs with
    | some r =>
      rw [htr] at h
      rw [show r = .error e from h] at htr
      exact LOCATORS_error_is_data cs e htr
    | none =>
      rw [htr] at h
      have h' : (if xpathStart cs = true then (Except.ok (xpEq ++ cs) : Except (List Char) (List Char))
          else .ok (idNameFallback cs)) = .error e := h
      split at h' <;> exact absurd h' (by simp)

/-- Witness for C7: the characterization applied to `data=foo`. -/
theorem C7_witness :
    (stratMatch domName dataFoo).isSome = true ∨
      ∃ rest, stratMatch dataName dataFoo = some rest ∧
        dataBuilder rest = .error (dataErrorText (("foo").toList)) :=
  C7_failure_only_dom_or_data dataFoo (dataErrorText (("foo").toList)) rfl

/- ### Claim C9: role-resolver quoting -/

/-- Running the scanner over an append composes the runs. -/
theorem sqFold_append (a b : List Char) (st : Option Bool) :
    sqFold (a ++ b) st = sqFold b (sqFold a st) := by
  simp [sqFold, List.foldl_append]

/-- A quote-free segment leaves the scanner state unchanged. -/
theorem sqFold_noquote : ∀ (cs : List Char) (b : Bool),
    (∀ c ∈ cs, c ≠ sq ∧ c ≠ dq) → sqFold cs (some b) = some b := by
  intro cs
  induction cs with
  | nil => intro b _; rfl
  | cons c cs ih =>
    intro b h
    have hc := h c (by simp)
    have hrest : ∀ x ∈ cs, x ≠ sq ∧ x ≠ dq := fun x hx => h x (by simp [hx])
    show sqFold cs (sqStep c b) = some b
    have hstep : sqStep c b = some b := by
      cases b <;> simp [sqStep, hc.1, hc.2]
    rw [hstep]
    exact ih b hrest

/-- Inside a single-quoted literal, any segment without a single quote
(double quotes included) keeps the scanner inside. -/
theorem sqFold_value : ∀ v : List Char, sq ∉ v → sqFold v (some true) = some true := by
  intro v
  induction v with
  | nil => intro _; rfl
  | cons c cs ih =>
    intro h
    have hc : c ≠ sq := fun e => h (by simp [e])
    have h' : sq ∉ cs := fun hx => h (by simp [hx])
    show sqFold cs (sqStep c true) = some true
    have hstep : sqStep c true = some true := by
      simp [sqStep, hc]
    rw [hstep]
    exact ih h'

/-- A complete single-quoted literal holding a single-quote-free value
returns the scanner to the outside state. -/
theorem sqFold_block (v r : List Char) (h : sq ∉ v) :
    sqFold ([sq] ++ (v ++ ([sq] ++ r))) (some false) = sqFold r (some false) := by
  rw [sqFold_append]
  have h1 : sqFold [sq] (some false) = some true := by decide
  rw [h1, sqFold_append, sqFold_value v h, sqFold_append]
  have h2 : sqFold [sq] (some true) = some false := by decide
  rw [h2]

/-- A quote-free chunk before more text leaves the outside state. -/
theorem sqFold_chunk (cs r : List Char) (h : ∀ c ∈ cs, c ≠ sq ∧ c ≠ dq) :
    sqFold (cs ++ r) (some false) = sqFold r (some false) := by
  rw [sqFold_append, sqFold_noquote cs false h]

/-- Claim C9 counterexample: for the default value `a"b`, the image
resolver embeds the raw double quote inside double-quoted XPath literals —
the produced expression is not single-quoted throughout. -/
theorem C9_counterexample :
    is_default c9loc = some c9val ∧
      c9val.contains dq = true ∧
      singleQuotedOK (get_image_locator c9loc) = false := by
  exact ⟨rfl, rfl, rfl⟩

/-- Claim C9 (amended): only the link resolver flips to single-quoted
literals — for a default-strategy value containing a double quote (and no
single quote) every double quote of `get_link_locator`'s output sits inside
a single-quoted XPath literal; the button resolver instead backslash-escapes
inside double-quoted literals, and image/list embed the value unchanged. -/
theorem C9_link_single_quoted (cs v : List Char)
    (hd : is_default cs = some v) (hdq : v.contains dq = true) (hsq : sq ∉ v) :
    singleQuotedOK (get_link_locator cs) = true := by
  unfold get_link_locator
  rw [hd]
  show singleQuotedOK
    (linkC1 ++ ((if v.contains dq then [sq] else [dq]) ++ (v ++
      ((if v.contains dq then [sq] else [dq]) ++ (linkC2 ++
      ((if v.contains dq then [sq] else [dq]) ++ (v ++
      ((if v.contains dq then [sq] else [dq]) ++ (linkC3 ++
      ((if v.contains dq then [sq] else [dq]) ++ (v ++
      ((if v.contains dq then [sq] else [dq]) ++ (linkC4 ++
      ((if v.contains dq then [sq] else [dq]) ++ (v ++
      ((if v.contains dq then [sq] else [dq]) ++ linkC5)))))))))))))))) = true
  rw [hdq]
  simp only [if_true]
  unfold singleQuotedOK
  rw [sqFold_chunk linkC1 _ (by decide)]
  rw [sqFold_block v _ hsq]
  rw [sqFold_chunk linkC2 _ (by decide)]
  rw [sqFold_block v _ hsq]
  rw [sqFold_chunk linkC3 _ (by decide)]
  rw [sqFold_block v _ hsq]
  rw [sqFold_chunk linkC4 _ (by decide)]
  rw [sqFold_block v _ hsq]
  decide

/-- Witness for C9: the link resolver on the concrete value `a"b`. -/
theorem C9_witness :
    singleQuotedOK (get_link_locator c9loc) = true :=
  C9_link_single_quoted c9loc c9val rfl rfl (by decide)

/- ### Claim C3: monotone synthetic ids on reset-free histories -/

/-- `close_browser` with a live current context never touches the counter. -/
theorem close_browser_index (st : CatalogState) (c : String) (rest : List String) :
    (close_browser st (c :: rest)).browserIndex = st.browserIndex := by
  cases hf : findIdxFor st.contextIndexes c with
  | none => simp [close_browser, hf]
  | some idx =>
    cases ha : findAliasFor st.contextAliases idx with
    | none => simp [close_browser, hf, ha]
    | some a => simp [close_browser, hf, ha]

/-- An open either creates a fresh handle carrying the current counter value
or leaves the state untouched and issues nothing. -/
theorem stepIssued_open (st : CatalogState) (a : Option String) (c p : String) :
    stepIssued st (.openOp a c p) = ((openNew st a c p).1, [st.browserIndex]) ∨
      stepIssued st (.openOp a c p) = (st, []) := by
  cases a with
  | none => left; rfl
  | some s =>
    cases h1 : List.lookup s st.contextAliases with
    | none =>
      left
      simp [stepIssued, open_browser, h1, openNew]
    | some idx =>
      cases h2 : List.lookup idx st.contextIndexes with
      | none => right; simp [stepIssued, open_browser, h1, h2]
      | some cid => right; simp [stepIssued, open_browser, h1, h2]

/-- Along a reset-free history, every issued id is at least the current
counter value and the issued ids strictly increase. -/
theorem issued_mono :
    ∀ (ops : List CatalogOp) (st : CatalogState), noCounterReset ops = true →
      (∀ x ∈ issuedIds st ops, st.browserIndex ≤ x) ∧
        List.Pairwise (fun a b => a < b) (issuedIds st ops) := by
  intro ops
  induction ops with
  | nil =>
    intro st _
    exact ⟨by simp [issuedIds], by simp [issuedIds]⟩
  | cons op ops ih =>
    intro st hn
    rw [noCounterReset, List.all_cons, Bool.and_eq_true] at hn
    have hn' : noCounterReset ops = true := hn.2
    cases op with
    | openOp a c p =>
      rcases stepIssued_open st a c p with hstep | hstep
      · have hbi : (openNew st a c p).1.browserIndex = st.browserIndex + 1 := rfl
        have hih := ih (openNew st a c p).1 hn'
        constructor
        · intro x hx
          simp only [issuedIds, hstep, List.singleton_append] at hx
          rcases List.mem_cons.mp hx with rfl | hx'
          · exact le_refl _
          · have := hih.1 x hx'
            omega
        · simp only [issuedIds, hstep, List.singleton_append]
          rw [List.pairwise_cons]
          refine ⟨fun x hx => ?_, hih.2⟩
          have := hih.1 x hx
          omega
      · have hih := ih st hn'
        constructor
        · intro x hx
          simp only [issuedIds, hstep] at hx
          exact hih.1 x hx
        · simp only [issuedIds, hstep]
          exact hih.2
    | closeOp ids =>
      cases ids with
      | nil => simp [noCounterReset] at hn
      | cons cHead cRest =>
        have hbi := close_browser_index st cHead cRest
        have hih := ih (close_browser st (cHead :: cRest)) hn'
        constructor
        · intro x hx
          simp only [issuedIds, stepIssued] at hx
          rw [List.nil_append] at hx
          have := hih.1 x hx
          omega
        · simp only [issuedIds, stepIssued]
          rw [List.nil_append]
          exact hih.2
    | closeAllOp => simp at hn

/-- Claim C3 (amended): across any history of opens and closes in which the
id counter is never re-created — no `close_all_browsers`, and every
`close_browser` finds a live current context — the issued synthetic ids
strictly increase in issue order (hence are pairwise distinct, and no
closed id is reissued).  `close_all_browsers` re-creates the counter, after
which ids repeat (see the counterexample). -/
theorem C3_monotonic_ids (ops : List CatalogOp) (h : noCounterReset ops = true) :
    List.Pairwise (fun a b => a < b) (issuedIds initialCatalog ops) :=
  (issued_mono ops initialCatalog h).2

/-- Witness for C3: a concrete reset-free history of three opens and one
close issues strictly increasing ids. -/
theorem C3_witness :
    List.Pairwise (fun a b => a < b) (issuedIds initialCatalog c3good) :=
  C3_monotonic_ids c3good (by decide)

/- ### Claim C1: the round trip -/

/-- Length of the fallback opening piece. -/
theorem dPre_length : dPre.length = 5 := by decide

/-- Length of the fallback middle piece. -/
theorem dSep_length : dSep.length = 11 := by decide

/-- Length of the fallback closing piece. -/
theorem dSuf_length : dSuf.length = 2 := by decide

/-- When no rule's tag matches, the whole table yields nothing. -/
theorem tryStrats_none (cs : List Char) :
    ∀ rules : List (List Char × (List Char → Except (List Char) (List Char))),
      rules.all (fun p => (stratMatch p.1 cs).isNone) = true → tryStrats rules cs = none := by
  intro rules
  induction rules with
  | nil => intro _; rfl
  | cons q rest ih =>
    intro h
    obtain ⟨nm, b⟩ := q
    rw [List.all_cons, Bool.and_eq_true] at h
    unfold tryStrats
    rw [Option.isNone_iff_eq_none.mp h.1]
    exact ih h.2

/-- Claim C1 counterexample: `a⏎b` (with a newline) has none of the
enumerated special characters — no strategy tag, no chain separator, no
XPath start, no quote — yet the round trip fails, because Python's `.` in
the recognizer regex does not match a newline. -/
theorem C1_counterexample :
    noSpecialChars cexStrC1 = true ∧ roundTrips cexStrC1 = false := by
  exact ⟨by decide, by decide⟩

/-- Claim C1 (amended): for every string with none of the enumerated
special characters and no newline, translating and then applying the
default-locator recognizer recovers the string exactly. -/
theorem C1_round_trip (s : List Char)
    (hstrat : noStrategyOf s = true)
    (hchain : containsSeq chainSep s = false)
    (hx : xpathStart s = false)
    (hsq : sq ∉ s) (hdq : dq ∉ s) (hnl : nl ∉ s) :
    roundTrips s = true := by
  have hstrat' := hstrat
  rw [noStrategyOf, List.all_cons, Bool.and_eq_true] at hstrat'
  have hdom : (stratMatch domName s).isSome = false := by
    have h1 : (stratMatch domName s).isNone = true := hstrat'.1
    rw [Option.isNone_iff_eq_none] at h1
    rw [h1]
    rfl
  have htab : LOCATORS.all (fun p => (stratMatch p.1 s).isNone) = true := by
    rw [List.all_eq_true]
    intro p hp
    have hm := List.all_eq_true.mp hstrat'.2 p.1 (List.mem_map_of_mem Prod.fst hp)
    simpa using hm
  have htry : tryStrats LOCATORS s = none := tryStrats_none s LOCATORS htab
  have htrans : from_string s = .ok (idNameFallback s) := by
    simp only [from_string, hchain, Bool.false_eq_true, if_false,
      get_single_locator, hdom, htry, hx]
  have hdrop5 : (idNameFallback s).drop dPre.length = s ++ (dSep ++ (s ++ dSuf)) := by
    unfold idNameFallback
    exact List.drop_left dPre _
  have htakeL : ((idNameFallback s).drop dPre.length).take s.length = s := by
    rw [hdrop5]
    exact List.take_left s _
  have hdropPreK : (idNameFallback s).drop (dPre.length + s.length) = dSep ++ (s ++ dSuf) := by
    unfold idNameFallback
    rw [List.drop_append]
    exact List.drop_left s _
  have hbsuf : ((idNameFallback s).drop (dPre.length + s.length)).drop dSep.length
      = s ++ dSuf := by
    rw [hdropPreK]
    exact List.drop_left dSep _
  have hlen : (idNameFallback s).length = 2 * s.length + 18 := by
    simp only [idNameFallback, List.length_append, dPre_length, dSep_length, dSuf_length]
    omega
  have hlb : (s ++ dSuf).length - 2 = s.length := by
    rw [List.length_append, dSuf_length]
    omega
  have hvalid : defaultSplitOK (idNameFallback s) s.length = true := by
    have h1 : dPre.isPrefixOf (idNameFallback s) = true := isPrefixOf_append_self dPre _
    have h2 : decide (dPre.length + s.length ≤ (idNameFallback s).length) = true := by
      rw [decide_eq_true_eq, hlen, dPre_length]
      omega
    have h3 : (((idNameFallback s).drop dPre.length).take s.length).all
        (fun c => c != nl) = true := by
      rw [htakeL]
      exact all_bne_of_not_mem hnl
    have h4 : dSep.isPrefixOf ((idNameFallback s).drop (dPre.length + s.length)) = true := by
      rw [hdropPreK]
      exact isPrefixOf_append_self dSep _
    have hb2 : decide (2 ≤ (((idNameFallback s).drop (dPre.length + s.length)).drop
        dSep.length).length) = true := by
      rw [decide_eq_true_eq, hbsuf, List.length_append, dSuf_length]
      omega
    have hb3 : ((((idNameFallback s).drop (dPre.length + s.length)).drop dSep.length).drop
        ((((idNameFallback s).drop (dPre.length + s.length)).drop dSep.length).length - 2)
          == dSuf) = true := by
      rw [hbsuf, hlb, List.drop_left s dSuf]
      exact beq_self_eq_true dSuf
    have hb4 : ((((idNameFallback s).drop (dPre.length + s.length)).drop dSep.length).take
        ((((idNameFallback s).drop (dPre.length + s.length)).drop dSep.length).length - 2)).all
          (fun c => c != nl) = true := by
      rw [hbsuf, hlb, List.take_left s dSuf]
      exact all_bne_of_not_mem hnl
    simp only [defaultSplitOK]
    rw [h1, h2, h3, h4, hb2, hb3, hb4]
    rfl
  have hinvalid : ∀ k, s.length < k → defaultSplitOK (idNameFallback s) k = false := by
    intro k hk
    rw [Bool.eq_false_iff]
    intro hkv
    simp only [defaultSplitOK, Bool.and_eq_true, decide_eq_true_eq, beq_iff_eq] at hkv
    obtain ⟨⟨⟨⟨hpre, hklen⟩, halla⟩, hsep⟩, ⟨hb2, hsufb⟩, hballb⟩ := hkv
    have hRdrop : (idNameFallback s).drop (dPre.length + k)
        = (s ++ (dSep ++ (s ++ dSuf))).drop k := by
      unfold idNameFallback
      exact List.drop_append k
    obtain ⟨z, hz⟩ := exists_of_isPrefixOf hsep
    have hzR : (s ++ (dSep ++ (s ++ dSuf))).drop k = dSep ++ z := by
      rw [← hRdrop, hz]
    have hbsufz : ((idNameFallback s).drop (dPre.length + k)).drop dSep.length = z := by
      rw [hz]
      exact List.drop_left dSep z
    rw [hbsufz] at hb2 hsufb
    have hzdec : z = z.take (z.length - 2) ++ dSuf := by
      conv_lhs => rw [← List.take_append_drop (z.length - 2) z]
      rw [hsufb]
    have hRlen : (idNameFallback s).length
        = dPre.length + (s ++ (dSep ++ (s ++ dSuf))).length := by
      unfold idNameFallback
      exact List.length_append dPre _
    have hklen' : k ≤ (s ++ (dSep ++ (s ++ dSuf))).length := by omega
    have hR2 : s ++ (dSep ++ (s ++ dSuf))
        = (s ++ (dSep ++ (s ++ dSuf))).take k ++ (dSep ++ z) := by
      conv_lhs => rw [← List.take_append_drop k (s ++ (dSep ++ (s ++ dSuf)))]
      rw [hzR]
    have hcnt := congrArg (List.count sq) hR2
    simp only [List.count_append] at hcnt
    have cS : s.count sq = 0 := List.count_eq_zero.mpr hsq
    have cSep : dSep.count sq = 2 := by decide
    have cSuf : dSuf.count sq = 1 := by decide
    have cz : z.count sq = (z.take (z.length - 2)).count sq + 1 := by
      conv_lhs => rw [hzdec]
      rw [List.count_append, cSuf]
    rw [cS, cSep, cSuf, cz] at hcnt
    have htakeCnt : ((s ++ (dSep ++ (s ++ dSuf))).take k).count sq = 0 := by omega
    have hsub : ((s ++ (dSep ++ (s ++ dSuf))).take k).take (s.length + 1) = s ++ [sq] := by
      rw [List.take_take, min_eq_left (by omega), List.take_append]
      rw [show (dSep ++ (s ++ dSuf)).take 1 = [sq] from by
        rw [List.take_append_of_le_length (by decide)]
        decide]
    have hmem : sq ∈ (s ++ (dSep ++ (s ++ dSuf))).take k := by
      have hin : sq ∈ s ++ [sq] := by simp
      rw [← hsub] at hin
      exact List.mem_of_mem_take hin
    rw [List.count_eq_zero] at htakeCnt
    exact htakeCnt hmem
  have hLle : s.length ≤ (idNameFallback s).length := by omega
  have hfind : (List.range ((idNameFallback s).length + 1)).reverse.find?
      (defaultSplitOK (idNameFallback s)) = some s.length :=
    find_desc _ s.length _ hvalid hinvalid hLle
  have hisdef : is_default (idNameFallback s) = some s := by
    unfold is_default
    simp only [hfind]
    rw [htakeL, hbsuf, hlb, List.take_left s dSuf, beq_self_eq_true]
    rfl
  unfold roundTrips
  rw [htrans]
  show (is_default (idNameFallback s) == some s) = true
  rw [hisdef]
  exact beq_self_eq_true (some s)

/-- Witness for C1: the amended round trip on the concrete string `foo`. -/
theorem C1_witness : roundTrips witStrC1 = true :=
  C1_round_trip witStrC1 (by decide) (by decide) (by decide) (by decide) (by decide)
    (by decide)

end SLtoB
